import Mathlib

/-!
Verification development for the Tech-Hive repository-scanning backend.

The definitions below are a shallow embedding of the TypeScript sources:
`src/backend/src/services/trufflehogService.ts` (TruffleHogService and
CacheService), `src/backend/src/middleware/rateLimiter.ts` (RateLimiter),
`src/backend/src/middleware/errorHandler.ts` (error classes) and
`src/backend/src/validators/scanValidator.ts` (validateScanRequest).
Machine integers are modelled as `Nat`/`Int`, promises as explicit state
passing, and the JavaScript runtime boundaries (JSON.parse, the WHATWG URL
parser, Date serialization, the MD5 digest) as executable Lean models that
are documented where they appear.
-/

namespace TechHive

/-- Decide whether `sub` occurs as a contiguous infix of `l`. -/
def listInfix (sub l : List Char) : Bool := l.tails.any (fun t => sub.isPrefixOf t)

/-- Model of JavaScript `String.prototype.includes`: `strIncludes s sub` is
true when `sub` occurs as a contiguous substring of `s`. -/
def strIncludes (s sub : String) : Bool := listInfix sub.data s.data

/-! ## Concurrency gate (TruffleHogService.scanRepository, lines 16-55)

The service keeps one mutable counter `currentScans`. `scanRepository`
rejects with a `ScanError` when `currentScans >= maxConcurrentScans`,
otherwise increments the counter, runs the scan body, and decrements the
counter in a `finally` block that runs on every exit path. -/

/-- The four ways the body of `scanRepository` can finish: a successful
scan, a parse error, a process error, or a timeout. -/
inductive ScanExit
  | success
  | parseError
  | processError
  | timeout
deriving DecidableEq, Repr

/-- State of the concurrency gate: the shared `currentScans` counter
together with the ids of the requests currently holding a permit. -/
structure GateState where
  currentScans : Nat
  holding : List Nat
deriving DecidableEq, Repr

/-- Initial gate state: no scan in flight. -/
def GateState.init : GateState := ⟨0, []⟩

/-- Events of the gate's life: a request tries to enter `scanRepository`
(the check plus increment run in one synchronous segment, so they are one
atomic event under the cooperative single-threaded scheduler), or a request
that entered finishes with some exit kind (the `finally` decrement). -/
inductive GateEvent
  | tryAcquire (id : Nat)
  | finish (id : Nat) (e : ScanExit)
deriving DecidableEq, Repr

/-- One step of the gate. `tryAcquire` leaves the state unchanged when the
counter has reached `maxConcurrentScans` (the request is rejected before the
increment); otherwise it increments the counter. `finish` of a holder runs
the `finally` decrement exactly once; a `finish` for a request that never
entered does nothing. -/
def gateStep (maxConcurrentScans : Nat) (s : GateState) : GateEvent → GateState
  | GateEvent.tryAcquire id =>
      if s.currentScans ≥ maxConcurrentScans then s
      else { currentScans := s.currentScans + 1, holding := id :: s.holding }
  | GateEvent.finish id _ =>
      if id ∈ s.holding then
        { currentScans := s.currentScans - 1, holding := s.holding.erase id }
      else s

/-- Run the gate from the initial state over a sequence of events. -/
def runGate (maxConcurrentScans : Nat) (evs : List GateEvent) : GateState :=
  evs.foldl (gateStep maxConcurrentScans) GateState.init

/-- Outcome of one `scanRepository` call as far as the gate is concerned:
whether the capacity check rejected the request, whether a permit was
acquired, how many times the `finally` decrement ran, the counter value
while the body executed, and the counter value after the call returns. -/
structure GateOutcome where
  rejected : Bool
  acquired : Bool
  releases : Nat
  heldDuringScan : Nat
  finalCount : Nat
deriving DecidableEq, Repr

/-- The gate skeleton of `scanRepository`: check, increment, body with any
of the four exits, `finally` decrement. The decrement runs once on every
path through the `try` block, whether the body returned or threw. -/
def scanRepositoryGate (current maxConcurrentScans : Nat) (_e : ScanExit) : GateOutcome :=
  if current ≥ maxConcurrentScans then
    { rejected := true, acquired := false, releases := 0,
      heldDuringScan := current, finalCount := current }
  else
    { rejected := false, acquired := true, releases := 1,
      heldDuringScan := current + 1, finalCount := current + 1 - 1 }

/-- Invariant of the gate: the counter equals the number of held permits
and never exceeds the capacity. -/
theorem gate_invariant (maxConcurrentScans : Nat) (evs : List GateEvent) :
    (runGate maxConcurrentScans evs).currentScans
        = (runGate maxConcurrentScans evs).holding.length ∧
      (runGate maxConcurrentScans evs).currentScans ≤ maxConcurrentScans := by
  suffices h : ∀ s : GateState,
      s.currentScans = s.holding.length → s.currentScans ≤ maxConcurrentScans →
      (evs.foldl (gateStep maxConcurrentScans) s).currentScans
          = (evs.foldl (gateStep maxConcurrentScans) s).holding.length ∧
        (evs.foldl (gateStep maxConcurrentScans) s).currentScans ≤ maxConcurrentScans by
    exact h GateState.init rfl (Nat.zero_le _)
  induction evs with
  | nil => intro s h1 h2; exact ⟨h1, h2⟩
  | cons ev rest ih =>
    intro s h1 h2
    apply ih
    · cases ev with
      | tryAcquire id =>
        simp only [gateStep]
        split
        · exact h1
        · simp [h1]
      | finish id e =>
        simp only [gateStep]
        split
        · next hmem =>
          simp only [List.length_erase_of_mem hmem, h1]
        · exact h1
    · cases ev with
      | tryAcquire id =>
        simp only [gateStep]
        split
        · exact h2
        · next hlt =>
          show s.currentScans + 1 ≤ maxConcurrentScans
          omega
      | finish id e =>
        simp only [gateStep]
        split
        · exact Nat.le_trans (Nat.sub_le _ _) h2
        · exact h2

/-- C1: for every scan request, the number of concurrency permits held at
any instant never exceeds maxConcurrentScans, and every request that enters
the scan releases its permit exactly once on every exit path (success,
parse error, process error, timeout), so a completed request decreases the
held-permit count by exactly one, while a request rejected at acquisition
leaves the count unchanged. -/
theorem C1_gate_permits :
    (∀ (maxConcurrentScans : Nat) (evs : List GateEvent),
        (runGate maxConcurrentScans evs).currentScans ≤ maxConcurrentScans) ∧
    (∀ (current maxConcurrentScans : Nat) (e : ScanExit),
        current < maxConcurrentScans →
          (scanRepositoryGate current maxConcurrentScans e).acquired = true ∧
          (scanRepositoryGate current maxConcurrentScans e).releases = 1 ∧
          (scanRepositoryGate current maxConcurrentScans e).heldDuringScan
              ≤ maxConcurrentScans ∧
          (scanRepositoryGate current maxConcurrentScans e).finalCount + 1
              = (scanRepositoryGate current maxConcurrentScans e).heldDuringScan) ∧
    (∀ (current maxConcurrentScans : Nat) (e : ScanExit),
        maxConcurrentScans ≤ current →
          (scanRepositoryGate current maxConcurrentScans e).rejected = true ∧
          (scanRepositoryGate current maxConcurrentScans e).releases = 0 ∧
          (scanRepositoryGate current maxConcurrentScans e).finalCount = current) := by
  refine ⟨fun m evs => (gate_invariant m evs).2, ?_, ?_⟩
  · intro current m e h
    have hnot : ¬ current ≥ m := Nat.not_le.mpr h
    unfold scanRepositoryGate
    rw [if_neg hnot]
    exact ⟨rfl, rfl, (by show current + 1 ≤ m; omega), rfl⟩
  · intro current m e h
    unfold scanRepositoryGate
    rw [if_pos h]
    exact ⟨rfl, rfl, rfl⟩

/-- Witness for C1 at concrete inputs: a trace of two acquisitions under
capacity 2 stays within the bound; an entered request under load 1 of 2
releases exactly once; a request arriving at load 3 of capacity 3 is
rejected and leaves the count unchanged. -/
theorem C1_gate_permits_witness :
    (runGate 2 [GateEvent.tryAcquire 0, GateEvent.tryAcquire 1,
        GateEvent.finish 0 ScanExit.timeout]).currentScans ≤ 2 ∧
    (scanRepositoryGate 1 2 ScanExit.parseError).releases = 1 ∧
    (scanRepositoryGate 3 3 ScanExit.success).finalCount = 3 :=
  ⟨C1_gate_permits.1 2 _,
   (C1_gate_permits.2.1 1 2 ScanExit.parseError (by decide)).2.1,
   (C1_gate_permits.2.2 3 3 ScanExit.success (by decide)).2.2⟩

/-! ## Command construction and process invocation
(TruffleHogService.buildTruffleHogCommand, lines 97-124, escapeShellArg,
lines 223-226, and executeTruffleHog's use of child_process.exec) -/

/-- Replace every occurrence of the non-empty pattern `pat` in `l` by `rep`,
scanning left to right; models `String.prototype.replace` with a global
regular expression. The first argument is fuel bounding the recursion. -/
def replaceAllAux : Nat → List Char → List Char → List Char → List Char
  | 0, _, _, _ => []
  | _, [], _, _ => []
  | fuel + 1, c :: rest, pat, rep =>
    if pat.isPrefixOf (c :: rest) then
      rep ++ replaceAllAux fuel ((c :: rest).drop pat.length) pat rep
    else c :: replaceAllAux fuel rest pat rep

/-- Model of `arg.replace(/pat/g, rep)` for a non-empty literal pattern. -/
def jsReplaceAll (s pat rep : String) : String :=
  String.mk (replaceAllAux (s.data.length + 1) s.data pat.data rep.data)

/-- Embedding of `TruffleHogService.escapeShellArg`: wrap the argument in
single quotes, turning every embedded single quote into the sequence
quote, double-quoted quote, quote. -/
def escapeShellArg (arg : String) : String :=
  "\x27" ++ jsReplaceAll arg "\x27" "\x27\"\x27\"\x27" ++ "\x27"

/-- Model of JavaScript `Array.prototype.join(' ')`. -/
def joinSpace : List String → String
  | [] => ""
  | [a] => a
  | a :: rest => a ++ " " ++ joinSpace rest

/-- Embedding of `TruffleHogService.buildTruffleHogCommand`: pick the
subcommand by substring tests on the repository URL (gitlab before github,
defaulting to the generic git mode) and interpolate one shell command
string, quoting the URL with `escapeShellArg`. -/
def buildTruffleHogCommand (repoUrl : String) : String :=
  let subcommand :=
    if strIncludes repoUrl "gitlab.com" then "gitlab"
    else if strIncludes repoUrl "github.com" then "github"
    else "git"
  let flags := ["--json", "--no-verification", "--concurrency=1"]
  if subcommand = "git" then
    "trufflehog git " ++ escapeShellArg repoUrl ++ " " ++ joinSpace flags
  else
    "trufflehog " ++ subcommand ++ " --repo=" ++ escapeShellArg repoUrl ++ " "
      ++ joinSpace flags

/-- How a child process is started: either a single command string handed
to a shell (`child_process.exec`), or a discrete argument vector passed
directly to the spawn primitive (`child_process.execFile`/`spawn`). -/
inductive Invocation
  | shellString (command : String)
  | argVector (argv : List String)
deriving DecidableEq, Repr

/-- Whether an invocation passes a discrete argument vector. -/
def Invocation.isArgVector : Invocation → Bool
  | Invocation.argVector _ => true
  | Invocation.shellString _ => false

/-- Embedding of how `executeTruffleHog` starts the scanner: it calls
`exec(command, ...)` with the interpolated string built by
`buildTruffleHogCommand`, so the invocation is a shell string. -/
def invokeTruffleHog (repoUrl : String) : Invocation :=
  Invocation.shellString (buildTruffleHogCommand repoUrl)

/-- C2 counterexample: at the concrete repository URL
`https://github.com/org/repo` the scanner is invoked as one interpolated
shell string (with the URL quoted into the string), not as a discrete
argument vector, contradicting the claim that it is never invoked as an
interpolated shell string. -/
theorem C2_shellstring_counterexample :
    (invokeTruffleHog "https://github.com/org/repo").isArgVector = false ∧
    invokeTruffleHog "https://github.com/org/repo" =
      Invocation.shellString
        "trufflehog github --repo=\x27https://github.com/org/repo\x27 --json --no-verification --concurrency=1" := by
  exact ⟨rfl, rfl⟩

/-- Written from the spec's words: the subcommand selected for a target,
gitlab or github when the URL mentions that host, defaulting to the
generic git mode for unrecognized hosts. -/
def specSubcommand (repoUrl : String) : String :=
  if strIncludes repoUrl "gitlab.com" then "gitlab"
  else if strIncludes repoUrl "github.com" then "github"
  else "git"

/-- Written from the spec's words: the repo argument token, a `--repo=`
flag for the github and gitlab subcommands and a positional argument for
the generic git mode; the URL is quote-escaped into the token. -/
def specRepoArg (repoUrl : String) : String :=
  if specSubcommand repoUrl = "git" then escapeShellArg repoUrl
  else "--repo=" ++ escapeShellArg repoUrl

/-- C2 amended: for every repository URL the scanner is invoked as a single
interpolated shell string, namely the space-join of the token list
scanner binary, subcommand (gitlab/github by URL substring, defaulting to
generic git), quote-escaped repo argument, `--json`, `--no-verification`,
`--concurrency=1` — not as a discrete argument vector. -/
theorem C2_amended_shell_invocation (repoUrl : String) :
    invokeTruffleHog repoUrl =
      Invocation.shellString (joinSpace
        ["trufflehog", specSubcommand repoUrl, specRepoArg repoUrl,
         "--json", "--no-verification", "--concurrency=1"]) ∧
    (invokeTruffleHog repoUrl).isArgVector = false := by
  refine ⟨?_, rfl⟩
  unfold invokeTruffleHog buildTruffleHogCommand specRepoArg specSubcommand
  by_cases h1 : strIncludes repoUrl "gitlab.com"
  · simp only [h1, if_true, if_pos]
    congr 1
  · by_cases h2 : strIncludes repoUrl "github.com"
    · simp only [h1, h2, if_true, if_false]
      congr 1
    · simp only [h1, h2, if_false]
      congr 1

/-! ## Process runner (TruffleHogService.executeWithTimeout, lines 127-176)

The code spawns the child with `exec`, accumulates stdout/stderr, starts a
`setTimeout` that sends SIGKILL and rejects with `Error('Command timeout')`
at `timeoutMs`, and on the child's `exit` event clears the timer and
resolves, or rejects with an exit-code error. A promise settles only once,
so the first of the two rejections wins in the timeout case. -/

/-- The observable behaviour of one child process: the instant at which it
would exit on its own (`none` when it would run forever), the exit code it
would report then, and the output it produces. -/
structure ProcBehavior where
  exitsAt : Option Nat
  exitCode : Int
  stdout : String
  stderr : String
deriving DecidableEq, Repr

/-- How the promise returned by `executeWithTimeout` settles: resolution
with the captured output, rejection with the timeout error, or rejection
with an exit-code error carrying the stderr excerpt. -/
inductive ExecOutcome
  | ok (stdout stderr : String)
  | timeoutErr (msg : String)
  | exitErr (code : Int) (msg : String)
deriving DecidableEq, Repr

/-- Whether an outcome is the timeout rejection. -/
def ExecOutcome.isTimeout : ExecOutcome → Bool
  | ExecOutcome.timeoutErr _ => true
  | _ => false

/-- Full trace of one `executeWithTimeout` call: how the promise settled,
whether SIGKILL was sent by the timer, whether the timer was cancelled by
the natural exit handler before firing, whether the child is still running
after the promise settles, and the instant at which the promise settles. -/
structure ExecTrace where
  outcome : ExecOutcome
  killedWithSIGKILL : Bool
  timerCancelled : Bool
  processRunningAfter : Bool
  settledAt : Nat
deriving DecidableEq, Repr

/-- The message of the exit-code rejection, exactly as interpolated by the
source: the code followed by the captured stderr or `Unknown error`. -/
def exitErrMessage (code : Int) (stderr : String) : String :=
  "TruffleHog exited with code " ++ toString code ++ ": "
    ++ (if stderr = "" then "Unknown error" else stderr)

/-- Embedding of `executeWithTimeout`. If the process exits on its own
strictly before `timeoutMs`, the exit handler runs first: it clears the
timer and settles the promise from the exit code. Otherwise the timer
fires at `timeoutMs`: it sends SIGKILL (non-catchable, so the child is
terminated) and rejects with `Error('Command timeout')`; the later
rejection from the exit handler is a no-op because the promise has already
settled. -/
def executeWithTimeout (timeoutMs : Nat) (p : ProcBehavior) : ExecTrace :=
  match p.exitsAt with
  | some t =>
    if t < timeoutMs then
      { outcome :=
          if p.exitCode ≠ 0 then
            ExecOutcome.exitErr p.exitCode (exitErrMessage p.exitCode p.stderr)
          else ExecOutcome.ok p.stdout p.stderr,
        killedWithSIGKILL := false, timerCancelled := true,
        processRunningAfter := false, settledAt := t }
    else
      { outcome := ExecOutcome.timeoutErr "Command timeout",
        killedWithSIGKILL := true, timerCancelled := false,
        processRunningAfter := false, settledAt := timeoutMs }
  | none =>
      { outcome := ExecOutcome.timeoutErr "Command timeout",
        killedWithSIGKILL := true, timerCancelled := false,
        processRunningAfter := false, settledAt := timeoutMs }

/-- C4: if the child has not exited by `timeoutMs` it is forcibly
terminated with SIGKILL and the call rejects with the timeout error at the
deadline; if it exits naturally before the deadline the timer is cancelled
and no timeout error is raised; in every case no child process is still
running once the call settles. -/
theorem C4_timeout_enforcement (timeoutMs : Nat) (p : ProcBehavior) :
    (p.exitsAt = none →
        (executeWithTimeout timeoutMs p).killedWithSIGKILL = true ∧
        (executeWithTimeout timeoutMs p).outcome
            = ExecOutcome.timeoutErr "Command timeout" ∧
        (executeWithTimeout timeoutMs p).settledAt = timeoutMs) ∧
    (∀ t, p.exitsAt = some t → timeoutMs ≤ t →
        (executeWithTimeout timeoutMs p).killedWithSIGKILL = true ∧
        (executeWithTimeout timeoutMs p).outcome
            = ExecOutcome.timeoutErr "Command timeout" ∧
        (executeWithTimeout timeoutMs p).settledAt = timeoutMs) ∧
    (∀ t, p.exitsAt = some t → t < timeoutMs →
        (executeWithTimeout timeoutMs p).timerCancelled = true ∧
        (executeWithTimeout timeoutMs p).killedWithSIGKILL = false ∧
        (executeWithTimeout timeoutMs p).outcome.isTimeout = false) ∧
    (executeWithTimeout timeoutMs p).processRunningAfter = false := by
  refine ⟨?_, ?_, ?_, ?_⟩
  · intro h
    simp only [executeWithTimeout, h]
    refine ⟨?_, ?_, ?_⟩ <;> trivial
  · intro t ht hle
    simp only [executeWithTimeout, ht]
    rw [if_neg (Nat.not_lt.mpr hle)]
    refine ⟨?_, ?_, ?_⟩ <;> trivial
  · intro t ht hlt
    simp only [executeWithTimeout, ht]
    rw [if_pos hlt]
    refine ⟨?_, ?_, ?_⟩
    · trivial
    · trivial
    · by_cases hc : p.exitCode ≠ 0
      · rw [if_pos hc]; rfl
      · rw [if_neg hc]; rfl
  · simp only [executeWithTimeout]
    cases h : p.exitsAt with
    | none => rfl
    | some t => by_cases hlt : t < timeoutMs <;> simp [hlt]

/-- Witness for C4 at concrete inputs: a hung process under a 100ms
deadline is SIGKILLed and rejects with the timeout error; a process that
exits at 50ms with code 0 cancels the timer and does not time out. -/
theorem C4_timeout_enforcement_witness :
    (executeWithTimeout 100 ⟨none, 0, "", ""⟩).killedWithSIGKILL = true ∧
    (executeWithTimeout 100 ⟨some 150, 0, "out", ""⟩).outcome
        = ExecOutcome.timeoutErr "Command timeout" ∧
    (executeWithTimeout 100 ⟨some 50, 0, "out", ""⟩).timerCancelled = true ∧
    (executeWithTimeout 100 ⟨some 50, 0, "out", ""⟩).processRunningAfter = false :=
  ⟨((C4_timeout_enforcement 100 ⟨none, 0, "", ""⟩).1 rfl).1,
   ((C4_timeout_enforcement 100 ⟨some 150, 0, "out", ""⟩).2.1 150 rfl (by decide)).2.1,
   ((C4_timeout_enforcement 100 ⟨some 50, 0, "out", ""⟩).2.2.1 50 rfl (by decide)).1,
   (C4_timeout_enforcement 100 ⟨some 50, 0, "out", ""⟩).2.2.2⟩

/-! ## Rate limiter (RateLimiter.middleware, rateLimiter.ts lines 26-75 of
the middleware file; claim sources give them as scan.ts lines 126-175)

Per client key the store holds a sorted set of admission timestamps. One
call runs a MULTI transaction (ZREMRANGEBYSCORE from 0 to now-windowMs,
ZCARD, EXPIRE ceil(windowMs/1000)), then checks the count against
maxRequests, answers 429 when at the limit, and otherwise issues a
separate ZADD of the current timestamp before calling next(). Redis keys
vanish when their TTL deadline passes or when the sorted set becomes
empty; EXPIRE on a missing key is a no-op and ZADD recreates the key. -/

/-- Store state for one rate-limit key: the admission timestamps in the
sorted set and the key's TTL deadline in ms (`none` when the key has no
TTL or does not exist, which coincides with `entries = []`). -/
structure RateLimitState where
  entries : List Int
  expireAt : Option Int
deriving DecidableEq, Repr

/-- Lazy key expiry: a key whose TTL deadline has passed behaves as
missing. -/
def normalizeKey (s : RateLimitState) (now : Int) : RateLimitState :=
  match s.expireAt with
  | some e => if e ≤ now then ⟨[], none⟩ else s
  | none => s

/-- The MULTI transaction of the middleware, executed atomically:
ZREMRANGEBYSCORE key 0 (now - windowMs), ZCARD key, EXPIRE key
ceil(windowMs/1000). Returns the ZCARD result and the store state after
the transaction; an emptied sorted set deletes the key, making the EXPIRE
a no-op. -/
def rateLimitCheck (windowMs : Nat) (s : RateLimitState) (now : Int) :
    Nat × RateLimitState :=
  let s0 := normalizeKey s now
  let windowStart : Int := now - (windowMs : Int)
  let pruned := s0.entries.filter (fun t => if 0 ≤ t ∧ t ≤ windowStart then false else true)
  let count := pruned.length
  let expire2 : Option Int :=
    if pruned.isEmpty then none
    else some (now + 1000 * (((windowMs + 999) / 1000 : Nat) : Int))
  (count, ⟨pruned, expire2⟩)

/-- The separate `redis.zadd(key, now, member)` call: record the admission
timestamp (the member is unique, so each call adds a fresh element); the
key's TTL is untouched. -/
def zaddStep (s : RateLimitState) (now : Int) : RateLimitState :=
  ⟨s.entries ++ [now], s.expireAt⟩

/-- One complete, uninterleaved middleware call: run the MULTI, deny
without recording when the count has reached maxRequests, otherwise record
the timestamp and admit. -/
def rateLimitAdmit (windowMs maxRequests : Nat) (s : RateLimitState) (now : Int) :
    Bool × RateLimitState :=
  let c := rateLimitCheck windowMs s now
  if c.1 ≥ maxRequests then (false, c.2)
  else (true, zaddStep c.2 now)

/-- Run a sequence of uninterleaved middleware calls at the given
timestamps, collecting the admission decisions. -/
def runAdmits (windowMs maxRequests : Nat) :
    RateLimitState → List Int → List Bool × RateLimitState
  | s, [] => ([], s)
  | s, now :: rest =>
    let r := rateLimitAdmit windowMs maxRequests s now
    let rec2 := runAdmits windowMs maxRequests r.2 rest
    (r.1 :: rec2.1, rec2.2)

/-- Final store state after a sequence of uninterleaved middleware calls
starting from the empty key. -/
def seqAdmitRun (windowMs maxRequests : Nat) (times : List Int) : RateLimitState :=
  times.foldl (fun s now => (rateLimitAdmit windowMs maxRequests s now).2) ⟨[], none⟩

/-- C7: with windowMs=60000 and maxRequests=3, three admits within one
second are all allowed, a fourth immediate call is denied without
recording a timestamp, and after time advances past the window a
subsequent call is allowed again. -/
theorem C7_sliding_window_scenario :
    (runAdmits 60000 3 ⟨[], none⟩ [0, 500, 1000, 1000]).1
        = [true, true, true, false] ∧
    (runAdmits 60000 3 ⟨[], none⟩ [0, 500, 1000, 1000]).2.entries
        = [0, 500, 1000] ∧
    (runAdmits 60000 3 ⟨[], none⟩ [0, 500, 1000, 1000, 70000]).1
        = [true, true, true, false, true] := by
  refine ⟨?_, ?_, ?_⟩ <;> rfl

/-! ## Interleaved middleware calls (the atomicity question of C3)

Each middleware call consists of two store operations: the MULTI block
(atomic on the store) and, after the in-process count check, a separate
ZADD. Between the two, other concurrent calls may run their own store
operations, so the decision is taken against a possibly stale count. -/

/-- A middleware call in flight: its timestamp, the count it obtained from
the MULTI block (`none` before that block ran), and its final decision
(`none` while unfinished). -/
structure PendingReq where
  now : Int
  checkedCount : Option Nat
  result : Option Bool
deriving DecidableEq, Repr

/-- Advance one in-flight call by one atomic store operation: first the
MULTI block, recording the observed count; then the in-process check plus,
when admitted, the separate ZADD. A finished call does not move. -/
def stepReq (windowMs maxRequests : Nat) (store : RateLimitState) (r : PendingReq) :
    RateLimitState × PendingReq :=
  match r.checkedCount with
  | none =>
    let c := rateLimitCheck windowMs store r.now
    (c.2, { r with checkedCount := some c.1 })
  | some c =>
    match r.result with
    | some _ => (store, r)
    | none =>
      if c ≥ maxRequests then (store, { r with result := some false })
      else (zaddStep store r.now, { r with result := some true })

/-- Run a set of concurrent middleware calls under an explicit interleaving
schedule: each schedule entry names the request that performs its next
atomic store operation. -/
def runSched (windowMs maxRequests : Nat) :
    RateLimitState → List PendingReq → List Nat → RateLimitState × List PendingReq
  | store, reqs, [] => (store, reqs)
  | store, reqs, i :: rest =>
    match reqs[i]? with
    | none => runSched windowMs maxRequests store reqs rest
    | some r =>
      let s := stepReq windowMs maxRequests store r
      runSched windowMs maxRequests s.1 (reqs.set i s.2) rest

/-- C3 counterexample: with windowMs=60000 and maxRequests=1, two
concurrent calls for the same client, both at time 0 against the empty
store, interleaved as check-A, check-B, record-A, record-B, are BOTH
admitted and both record their timestamps — jointly admitting 2 requests
inside one trailing window of length 60000 although maxRequests is 1. The
recording step is a separate ZADD issued after the MULTI transaction, so
the three steps do not execute as one indivisible unit. -/
theorem C3_nonatomic_counterexample :
    ((runSched 60000 1 ⟨[], none⟩ [⟨0, none, none⟩, ⟨0, none, none⟩]
        [0, 1, 0, 1]).2.map PendingReq.result) = [some true, some true] ∧
    (runSched 60000 1 ⟨[], none⟩ [⟨0, none, none⟩, ⟨0, none, none⟩]
        [0, 1, 0, 1]).1.entries = [0, 0] := by
  exact ⟨rfl, rfl⟩

/-- Helper: one uninterleaved middleware call keeps the number of recorded
timestamps at or below maxRequests. -/
theorem admit_entries_le (windowMs maxRequests : Nat) (s : RateLimitState) (now : Int)
    (h : s.entries.length ≤ maxRequests) :
    ((rateLimitAdmit windowMs maxRequests s now).2).entries.length ≤ maxRequests := by
  have hnorm : (normalizeKey s now).entries.length ≤ maxRequests := by
    unfold normalizeKey
    split
    · split
      · exact Nat.zero_le _
      · exact h
    · exact h
  have hcheck : (rateLimitCheck windowMs s now).2.entries.length ≤ maxRequests := by
    show ((normalizeKey s now).entries.filter
        (fun t => if 0 ≤ t ∧ t ≤ now - (windowMs : Int) then false else true)).length
          ≤ maxRequests
    exact Nat.le_trans (List.length_filter_le _ _) hnorm
  have hcount : (rateLimitCheck windowMs s now).1
      = (rateLimitCheck windowMs s now).2.entries.length := rfl
  show (if (rateLimitCheck windowMs s now).1 ≥ maxRequests then
          ((false, (rateLimitCheck windowMs s now).2) : Bool × RateLimitState)
        else (true, zaddStep (rateLimitCheck windowMs s now).2 now)).2.entries.length
      ≤ maxRequests
  by_cases hge : (rateLimitCheck windowMs s now).1 ≥ maxRequests
  · rw [if_pos hge]
    exact hcheck
  · rw [if_neg hge]
    show (zaddStep (rateLimitCheck windowMs s now).2 now).entries.length ≤ maxRequests
    unfold zaddStep
    rw [List.length_append]
    simp only [List.length_singleton]
    omega

/-- C3 amended: the prune-and-count steps run atomically inside the MULTI
transaction, but the recording ZADD is a separate store operation issued
after the in-process decision. Consequently sequential (uninterleaved)
calls never keep more than maxRequests recorded admissions, while two
concurrently interleaved calls at the limit boundary can jointly admit
maxRequests + 1 requests within one trailing window. -/
theorem C3_amended_nonatomic_overshoot :
    (∀ (windowMs maxRequests : Nat) (times : List Int),
        (seqAdmitRun windowMs maxRequests times).entries.length ≤ maxRequests) ∧
    ((runSched 60000 1 ⟨[], none⟩ [⟨0, none, none⟩, ⟨0, none, none⟩]
        [1, 0, 1, 0]).2.map PendingReq.result) = [some true, some true] ∧
    (runSched 60000 1 ⟨[], none⟩ [⟨0, none, none⟩, ⟨0, none, none⟩]
        [1, 0, 1, 0]).1.entries.length = 1 + 1 := by
  refine ⟨?_, rfl, rfl⟩
  intro windowMs maxRequests times
  unfold seqAdmitRun
  suffices hgen : ∀ s : RateLimitState, s.entries.length ≤ maxRequests →
      (times.foldl (fun s now => (rateLimitAdmit windowMs maxRequests s now).2)
          s).entries.length ≤ maxRequests by
    exact hgen ⟨[], none⟩ (Nat.zero_le _)
  induction times with
  | nil => intro s hs; exact hs
  | cons now rest ih =>
    intro s hs
    exact ih _ (admit_entries_le windowMs maxRequests s now hs)

/-! ## Fail-open behaviour of the middleware (rateLimiter.ts catch block) -/

/-- The two store round trips a middleware call performs; either can fail
(a rejected promise, or `multi.exec()` returning null, which the code turns
into a thrown `Redis transaction failed` error). -/
inductive StoreOp
  | multiExec
  | zadd
deriving DecidableEq, Repr

/-- What the middleware decides for the request: call `next()` so the
request proceeds, or answer 429. -/
inductive MiddlewareDecision
  | proceed
  | rejected429
deriving DecidableEq, Repr

/-- The body of `RateLimiter.middleware` inside its try block, with an
optional injected store failure: run the MULTI (throwing when it fails),
answer 429 when the observed count has reached maxRequests, otherwise run
the separate ZADD (throwing when it fails) and call `next()`. Errors carry
the store state at the moment of the throw. -/
def middlewareBody (windowMs maxRequests : Nat) (s : RateLimitState) (now : Int)
    (failing : Option StoreOp) :
    Except (String × RateLimitState) (MiddlewareDecision × RateLimitState) :=
  if failing = some StoreOp.multiExec then
    Except.error ("Redis transaction failed", s)
  else
    let c := rateLimitCheck windowMs s now
    if c.1 ≥ maxRequests then Except.ok (MiddlewareDecision.rejected429, c.2)
    else if failing = some StoreOp.zadd then Except.error ("zadd failed", c.2)
    else Except.ok (MiddlewareDecision.proceed, zaddStep c.2 now)

/-- The full middleware: the catch block logs the error and calls
`next()`, so any thrown store error lets the request proceed. -/
def rateLimitMiddleware (windowMs maxRequests : Nat) (s : RateLimitState) (now : Int)
    (failing : Option StoreOp) : MiddlewareDecision × RateLimitState :=
  match middlewareBody windowMs maxRequests s now failing with
  | Except.ok r => r
  | Except.error e => (MiddlewareDecision.proceed, e.2)

/-- C8: whenever a backing-store operation fails (the body throws), the
limiter fails open — the request proceeds via `next()` instead of being
denied; in particular a failed MULTI transaction always lets the request
proceed. -/
theorem C8_fail_open (windowMs maxRequests : Nat) (s : RateLimitState) (now : Int)
    (failing : Option StoreOp) :
    (∀ e, middlewareBody windowMs maxRequests s now failing = Except.error e →
        (rateLimitMiddleware windowMs maxRequests s now failing).1
          = MiddlewareDecision.proceed) ∧
    (rateLimitMiddleware windowMs maxRequests s now (some StoreOp.multiExec)).1
        = MiddlewareDecision.proceed := by
  constructor
  · intro e he
    unfold rateLimitMiddleware
    rw [he]
  · rfl

/-- Witness for C8 at concrete inputs: a failing MULTI against the empty
store at time 0 with windowMs=60000 and maxRequests=3 lets the request
proceed. -/
theorem C8_fail_open_witness :
    (rateLimitMiddleware 60000 3 ⟨[], none⟩ 0 (some StoreOp.multiExec)).1
        = MiddlewareDecision.proceed :=
  (C8_fail_open 60000 3 ⟨[], none⟩ 0 (some StoreOp.multiExec)).1
    ("Redis transaction failed", ⟨[], none⟩) rfl

/-! ## Error surfacing (errorHandler.ts lines 59-64 and
TruffleHogService.executeTruffleHog, lines 57-94)

Every scan-related failure is raised as `ScanError`, a subclass of
`AppError` with statusCode 500 and code `SCAN_ERROR`; `executeTruffleHog`
classifies the low-level error only by substring sniffing on its message,
choosing among fixed human-readable messages, and `errorHandler` serializes
`statusCode`, `code` and `message` into the HTTP response. -/

/-- The data of an `AppError`: human message, HTTP status, machine code. -/
structure AppErrorData where
  message : String
  statusCode : Nat
  code : String
deriving DecidableEq, Repr

/-- Embedding of the `ScanError` constructor: statusCode 500 and machine
code SCAN_ERROR regardless of the message. -/
def mkScanError (message : String) : AppErrorData :=
  { message := message, statusCode := 500, code := "SCAN_ERROR" }

/-- The four failure causes named by the claim: gate saturation, timeout,
nonzero process exit, and scanner unavailable. -/
inductive ScanFailureCause
  | gateSaturated
  | timeoutKill
  | processExit (code : Int) (stderr : String)
  | scannerMissing
deriving DecidableEq, Repr

/-- The catch block of `executeTruffleHog`: substring sniffing on the
error message, in source order, falling through to the generic wrapper
`Failed to scan repository` added by `scanRepository`'s catch for errors
that are not already `ScanError`s. -/
def classifyExecError (msg : String) : AppErrorData :=
  if strIncludes msg "timeout" then
    mkScanError "Scan timed out. Repository may be too large or network is slow."
  else if strIncludes msg "not found" || strIncludes msg "command not found" then
    mkScanError "TruffleHog is not installed or not accessible."
  else if strIncludes msg "permission denied" || strIncludes msg "access denied" then
    mkScanError "Access denied to repository. Please check repository permissions."
  else if strIncludes msg "repository not found" || strIncludes msg "404" then
    mkScanError "Repository not found or is private."
  else
    mkScanError ("Failed to scan repository: " ++ msg)

/-- The error each failure cause surfaces to the caller. The gate throws
its `ScanError` directly in `scanRepository`; the timeout rejection carries
the message `Command timeout`; a nonzero exit carries the interpolated
exit-code message; a missing scanner binary surfaces through the shell as
exit code 127 with a `not found` stderr line. -/
def surfacedError : ScanFailureCause → AppErrorData
  | ScanFailureCause.gateSaturated =>
      mkScanError "Maximum concurrent scans reached. Please try again later."
  | ScanFailureCause.timeoutKill => classifyExecError "Command timeout"
  | ScanFailureCause.processExit code stderr =>
      classifyExecError (exitErrMessage code stderr)
  | ScanFailureCause.scannerMissing =>
      classifyExecError "TruffleHog exited with code 127: sh: 1: trufflehog: not found"

/-- The body of the JSON error response produced by `errorHandler`. -/
structure HttpErrorBody where
  success : Bool
  code : String
  message : String
deriving DecidableEq, Repr

/-- Embedding of `errorHandler` for an `AppError`: HTTP status from the
error and a body carrying the machine code and the message. -/
def errorHandlerResponse (e : AppErrorData) : Nat × HttpErrorBody :=
  (e.statusCode, { success := false, code := e.code, message := e.message })

/-- C9 counterexample: gate saturation and timeout, two of the claim's
failure causes, are delivered to the caller with the SAME machine-readable
error kind — both arrive as code SCAN_ERROR with HTTP status 500 — so the
error kinds for these two causes do not differ. -/
theorem C9_same_kind_counterexample :
    (errorHandlerResponse (surfacedError ScanFailureCause.gateSaturated)).2.code
        = (errorHandlerResponse (surfacedError ScanFailureCause.timeoutKill)).2.code ∧
    (errorHandlerResponse (surfacedError ScanFailureCause.gateSaturated)).1
        = (errorHandlerResponse (surfacedError ScanFailureCause.timeoutKill)).1 := by
  exact ⟨rfl, rfl⟩

/-- Helper: every path through the substring classifier yields machine code
SCAN_ERROR with HTTP status 500. -/
theorem classifyExecError_uniform (msg : String) :
    (classifyExecError msg).code = "SCAN_ERROR"
      ∧ (classifyExecError msg).statusCode = 500 := by
  unfold classifyExecError mkScanError
  split
  · exact ⟨rfl, rfl⟩
  · split
    · exact ⟨rfl, rfl⟩
    · split
      · exact ⟨rfl, rfl⟩
      · split
        · exact ⟨rfl, rfl⟩
        · exact ⟨rfl, rfl⟩

/-- C9 amended: all four failure causes — gate saturation, timeout,
nonzero process exit, scanner unavailable — are surfaced with one and the
same machine-readable kind, code SCAN_ERROR and HTTP status 500. The
causes differ at most in their human-readable message texts, and even
those are not reliably distinct, because the classification is substring
sniffing on the error message: a nonzero exit whose stderr contains
`not found` is reported with the scanner-unavailable message, and one
whose stderr contains `timeout` with the timeout message. -/
theorem C9_amended_uniform_scan_error :
    (∀ c : ScanFailureCause,
        (errorHandlerResponse (surfacedError c)).2.code = "SCAN_ERROR" ∧
        (errorHandlerResponse (surfacedError c)).1 = 500) ∧
    (surfacedError (ScanFailureCause.processExit 1 "remote: Repository not found")).message
        = (surfacedError ScanFailureCause.scannerMissing).message ∧
    (surfacedError (ScanFailureCause.processExit 1 "ssh: connect timeout")).message
        = (surfacedError ScanFailureCause.timeoutKill).message := by
  refine ⟨?_, rfl, rfl⟩
  intro c
  cases c with
  | gateSaturated => exact ⟨rfl, rfl⟩
  | timeoutKill => exact ⟨rfl, rfl⟩
  | processExit code stderr =>
    exact ⟨(classifyExecError_uniform _).1, (classifyExecError_uniform _).2⟩
  | scannerMissing => exact ⟨rfl, rfl⟩

/-! ## JSON values and the runtime JSON.parse
(model of the JavaScript runtime used by
TruffleHogService.parseTruffleHogOutput, lines 179-220)

JSON values are modelled structurally; numbers keep their source lexeme so
that no floating-point arithmetic is needed (none of the verified claims
depends on numeric values). `Json.parse` below is an executable
recursive-descent model of the runtime's `JSON.parse`: it accepts the RFC
8259 grammar (strings with escapes, numbers, literals, arrays, objects,
surrounding whitespace) and returns `none` where `JSON.parse` throws a
SyntaxError. -/

/-- A parsed JSON value. -/
inductive Json
  | null
  | bool (b : Bool)
  | num (lexeme : String)
  | str (s : String)
  | arr (elems : List Json)
  | obj (fields : List (String × Json))
deriving Repr

/-- The opening-brace character of JSON object syntax. -/
def lbrace : Char := Char.ofNat 123

/-- The closing-brace character of JSON object syntax. -/
def rbrace : Char := Char.ofNat 125

/-- JSON insignificant whitespace. -/
def isJsonWs (c : Char) : Bool := c == ' ' || c == '\t' || c == '\n' || c == '\r'

/-- Drop leading JSON whitespace. -/
def skipWs : List Char → List Char
  | [] => []
  | c :: cs => if isJsonWs c then skipWs cs else c :: cs

/-- Value of a hexadecimal digit. -/
def hexVal (c : Char) : Option Nat :=
  if '0' ≤ c ∧ c ≤ '9' then some (c.toNat - '0'.toNat)
  else if 'a' ≤ c ∧ c ≤ 'f' then some (c.toNat - 'a'.toNat + 10)
  else if 'A' ≤ c ∧ c ≤ 'F' then some (c.toNat - 'A'.toNat + 10)
  else none

/-- Parse the body of a JSON string after the opening quote, returning the
decoded string and the input after the closing quote. -/
def parseJString (acc : List Char) : List Char → Option (String × List Char)
  | [] => none
  | c :: cs =>
    if c = '"' then some (String.mk acc.reverse, cs)
    else if c = '\\' then
      match cs with
      | [] => none
      | e :: cs2 =>
        if e = '"' then parseJString ('"' :: acc) cs2
        else if e = '\\' then parseJString ('\\' :: acc) cs2
        else if e = '/' then parseJString ('/' :: acc) cs2
        else if e = 'b' then parseJString (Char.ofNat 8 :: acc) cs2
        else if e = 'f' then parseJString (Char.ofNat 12 :: acc) cs2
        else if e = 'n' then parseJString ('\n' :: acc) cs2
        else if e = 'r' then parseJString ('\r' :: acc) cs2
        else if e = 't' then parseJString ('\t' :: acc) cs2
        else if e = 'u' then
          match cs2 with
          | h1 :: h2 :: h3 :: h4 :: cs3 =>
            match hexVal h1, hexVal h2, hexVal h3, hexVal h4 with
            | some a, some b, some c1, some d =>
              parseJString (Char.ofNat (((a * 16 + b) * 16 + c1) * 16 + d) :: acc) cs3
            | _, _, _, _ => none
          | _ => none
        else none
    else if c.toNat < 32 then none
    else parseJString (c :: acc) cs

/-- Take leading decimal digits. -/
def takeDigits : List Char → List Char × List Char
  | [] => ([], [])
  | c :: cs =>
    if '0' ≤ c ∧ c ≤ '9' then
      let r := takeDigits cs
      (c :: r.1, r.2)
    else ([], c :: cs)

/-- Parse an optional JSON fraction part. -/
def parseFrac : List Char → Option (List Char × List Char)
  | '.' :: rest =>
    let d := takeDigits rest
    if d.1.isEmpty then none else some ('.' :: d.1, d.2)
  | cs => some ([], cs)

/-- Parse an optional JSON exponent part. -/
def parseExp : List Char → Option (List Char × List Char)
  | [] => some ([], [])
  | e :: rest =>
    if e = 'e' ∨ e = 'E' then
      let p := match rest with
        | '+' :: r => ((['+'] : List Char), r)
        | '-' :: r => ((['-'] : List Char), r)
        | _ => (([] : List Char), rest)
      let d := takeDigits p.2
      if d.1.isEmpty then none else some (e :: (p.1 ++ d.1), d.2)
    else some ([], e :: rest)

/-- Parse a JSON number, returning its lexeme. -/
def parseNumber (cs : List Char) : Option (String × List Char) :=
  let p := match cs with
    | '-' :: rest => ((['-'] : List Char), rest)
    | _ => (([] : List Char), cs)
  let intd := takeDigits p.2
  match intd.1 with
  | [] => none
  | _ =>
    let okInt : Bool := match intd.1 with
      | '0' :: _ :: _ => false
      | _ => true
    if okInt then
      match parseFrac intd.2 with
      | none => none
      | some fr =>
        match parseExp fr.2 with
        | none => none
        | some ex => some (String.mk (p.1 ++ intd.1 ++ fr.1 ++ ex.1), ex.2)
    else none

mutual

/-- Parse one JSON value; the first argument is fuel. -/
def parseValue : Nat → List Char → Option (Json × List Char)
  | 0, _ => none
  | fuel + 1, cs =>
    match skipWs cs with
    | [] => none
    | c :: rest =>
      if c = '"' then
        match parseJString [] rest with
        | some r => some (Json.str r.1, r.2)
        | none => none
      else if c = lbrace then parseObjBody fuel rest
      else if c = '[' then parseArrBody fuel rest
      else if c = 't' then
        if ['r', 'u', 'e'].isPrefixOf rest then some (Json.bool true, rest.drop 3)
        else none
      else if c = 'f' then
        if ['a', 'l', 's', 'e'].isPrefixOf rest then some (Json.bool false, rest.drop 4)
        else none
      else if c = 'n' then
        if ['u', 'l', 'l'].isPrefixOf rest then some (Json.null, rest.drop 3)
        else none
      else
        match parseNumber (c :: rest) with
        | some r => some (Json.num r.1, r.2)
        | none => none

/-- Parse a JSON object body after the opening brace. -/
def parseObjBody : Nat → List Char → Option (Json × List Char)
  | 0, _ => none
  | fuel + 1, cs =>
    match skipWs cs with
    | [] => none
    | c :: rest =>
      if c = rbrace then some (Json.obj [], rest)
      else parseMembers fuel (c :: rest) []

/-- Parse the members of a JSON object, accumulating key-value pairs. -/
def parseMembers : Nat → List Char → List (String × Json) →
    Option (Json × List Char)
  | 0, _, _ => none
  | fuel + 1, cs, acc =>
    match skipWs cs with
    | [] => none
    | c :: rest =>
      if c = '"' then
        match parseJString [] rest with
        | none => none
        | some kv =>
          match skipWs kv.2 with
          | ':' :: rest2 =>
            match parseValue fuel rest2 with
            | none => none
            | some vv =>
              match skipWs vv.2 with
              | [] => none
              | c3 :: rest3 =>
                if c3 = ',' then parseMembers fuel rest3 (acc ++ [(kv.1, vv.1)])
                else if c3 = rbrace then
                  some (Json.obj (acc ++ [(kv.1, vv.1)]), rest3)
                else none
          | _ => none
      else none

/-- Parse a JSON array body after the opening bracket. -/
def parseArrBody : Nat → List Char → Option (Json × List Char)
  | 0, _ => none
  | fuel + 1, cs =>
    match skipWs cs with
    | [] => none
    | c :: rest =>
      if c = ']' then some (Json.arr [], rest)
      else parseElems fuel (c :: rest) []

/-- Parse the elements of a JSON array, accumulating values. -/
def parseElems : Nat → List Char → List Json → Option (Json × List Char)
  | 0, _, _ => none
  | fuel + 1, cs, acc =>
    match parseValue fuel cs with
    | none => none
    | some vv =>
      match skipWs vv.2 with
      | [] => none
      | c :: rest =>
        if c = ',' then parseElems fuel rest (acc ++ [vv.1])
        else if c = ']' then some (Json.arr (acc ++ [vv.1]), rest)
        else none

end

/-- Model of the runtime `JSON.parse`: parse one value surrounded by
whitespace, requiring the whole input to be consumed; `none` models a
thrown SyntaxError. -/
def jsonParseJs (s : String) : Option Json :=
  match parseValue (4 * (s.data.length + 1)) s.data with
  | some r => if (skipWs r.2).isEmpty then some r.1 else none
  | none => none

/-! ## Result parsing (TruffleHogService.parseTruffleHogOutput, 179-220)

Each line of the tool output is fed to `JSON.parse` and the parsed value's
properties are read to build a `TruffleHogResult`. In JavaScript, property
access on `null` throws a TypeError; the surrounding try/catch therefore
also swallows lines whose JSON value is the literal `null`. Property
access on other primitives yields `undefined` without throwing. -/

/-- JavaScript property access, as `Except`: reading a property of `null`
throws; reading from an object takes the last binding of the key (later
duplicate keys overwrite earlier ones); reading any other value gives
`undefined`, modelled as `none`. -/
def getField (v : Json) (k : String) : Except Unit (Option Json) :=
  match v with
  | Json.null => Except.error ()
  | Json.obj fields =>
      Except.ok (((fields.filter (fun f => f.1 == k)).getLast?).map (fun f => f.2))
  | _ => Except.ok none

/-- Truthiness of a JSON number lexeme: zero in every written form
(0, -0, 0.00, 0e5) is falsy. -/
def numLexemeTruthy (lex : String) : Bool :=
  (lex.data.takeWhile (fun c => !(c == 'e' || c == 'E'))).any
    (fun c => decide ('1' ≤ c ∧ c ≤ '9'))

/-- JavaScript truthiness of a possibly-undefined JSON value. -/
def jsTruthy : Option Json → Bool
  | none => false
  | some Json.null => false
  | some (Json.bool b) => b
  | some (Json.num lexeme) => numLexemeTruthy lexeme
  | some (Json.str s) => !(s == "")
  | some (Json.arr _) => true
  | some (Json.obj _) => true

/-- JavaScript `v || dflt`: the value itself when truthy, else the
default. -/
def jsOr (v : Option Json) (dflt : Json) : Json :=
  if jsTruthy v then v.getD dflt else dflt

/-- One finding, mirroring the object literal built in the source: plain
copies of the parsed properties (possibly undefined), with
`Verified: parsed.Verified || false` and
`ExtraData: parsed.ExtraData || {}`. -/
structure TruffleHogResult where
  SourceMetadata : Option Json
  SourceID : Option Json
  SourceType : Option Json
  SourceName : Option Json
  DetectorType : Option Json
  DetectorName : Option Json
  DecoderName : Option Json
  Verified : Json
  Raw : Option Json
  RawV2 : Option Json
  Redacted : Option Json
  ExtraData : Json
deriving Repr

/-- The body of the per-line try block after `JSON.parse` succeeded:
twelve property reads and the object literal. Throws (errors) exactly when
the parsed value is `null`. -/
def buildFinding (parsed : Json) : Except Unit TruffleHogResult := do
  let sourceMetadata ← getField parsed "SourceMetadata"
  let sourceID ← getField parsed "SourceID"
  let sourceType ← getField parsed "SourceType"
  let sourceName ← getField parsed "SourceName"
  let detectorType ← getField parsed "DetectorType"
  let detectorName ← getField parsed "DetectorName"
  let decoderName ← getField parsed "DecoderName"
  let verified ← getField parsed "Verified"
  let raw ← getField parsed "Raw"
  let rawV2 ← getField parsed "RawV2"
  let redacted ← getField parsed "Redacted"
  let extraData ← getField parsed "ExtraData"
  Except.ok
    { SourceMetadata := sourceMetadata, SourceID := sourceID,
      SourceType := sourceType, SourceName := sourceName,
      DetectorType := detectorType, DetectorName := detectorName,
      DecoderName := decoderName, Verified := jsOr verified (Json.bool false),
      Raw := raw, RawV2 := rawV2, Redacted := redacted,
      ExtraData := jsOr extraData (Json.obj []) }

/-- Whether an `Except` computation succeeded. -/
def exceptOk {ε α : Type} : Except ε α → Bool
  | Except.ok _ => true
  | Except.error _ => false

/-- Whether a JSON value is the literal null. -/
def Json.isNull : Json → Bool
  | Json.null => true
  | _ => false

/-- JavaScript whitespace trimmed by `String.prototype.trim` (the ASCII
part; the claims use only ASCII inputs). -/
def isJsWsChar (c : Char) : Bool :=
  c == ' ' || c == '\t' || c == '\n' || c == '\r'
    || c == Char.ofNat 11 || c == Char.ofNat 12

/-- Model of `String.prototype.trim`. -/
def jsTrim (s : String) : String :=
  String.mk (((s.data.dropWhile isJsWsChar).reverse.dropWhile isJsWsChar).reverse)

/-- Split a character list at every occurrence of the separator. -/
def splitOnChar (sep : Char) : List Char → List (List Char)
  | [] => [[]]
  | c :: rest =>
    let r := splitOnChar sep rest
    if c = sep then [] :: r
    else
      match r with
      | h :: t => (c :: h) :: t
      | [] => [[c]]

/-- Model of JavaScript `s.split('\n')`. -/
def jsSplitNewline (s : String) : List String :=
  (splitOnChar '\n' s.data).map String.mk

/-- The body of the per-line loop: skip blank lines; on a JSON syntax
error or a thrown property access, log a warning and keep the results so
far; otherwise append the new finding. -/
def parseLineStep (results : List TruffleHogResult) (line : String) :
    List TruffleHogResult :=
  if jsTrim line = "" then results
  else
    match jsonParseJs line with
    | none => results
    | some parsed =>
      match buildFinding parsed with
      | Except.error _ => results
      | Except.ok r => results ++ [r]

/-- Embedding of `parseTruffleHogOutput`: empty (after trimming) output
yields no findings; otherwise the trimmed output is split on newlines and
each line is processed independently by the loop body. -/
def parseTruffleHogOutput (output : String) : List TruffleHogResult :=
  if jsTrim output = "" then []
  else (jsSplitNewline (jsTrim output)).foldl parseLineStep []

/-- A line that contributes one finding: non-blank, parses as JSON, and
the finding construction does not throw. -/
def lineYieldsFinding (line : String) : Bool :=
  if jsTrim line = "" then false
  else
    match jsonParseJs line with
    | none => false
    | some parsed => exceptOk (buildFinding parsed)

/-- Helper: one loop step grows the result list by one exactly on lines
that yield a finding. -/
theorem parseLineStep_length (results : List TruffleHogResult) (line : String) :
    (parseLineStep results line).length
      = results.length + (if lineYieldsFinding line then 1 else 0) := by
  unfold parseLineStep lineYieldsFinding
  split
  · simp
  · cases h : jsonParseJs line with
    | none => simp
    | some parsed =>
      cases hb : buildFinding parsed with
      | error e => simp [hb, exceptOk]
      | ok r => simp [hb, exceptOk]

/-- Helper: the loop over the lines counts exactly the lines that yield a
finding. -/
theorem foldl_parseLineStep_length (lines : List String)
    (acc : List TruffleHogResult) :
    (lines.foldl parseLineStep acc).length
      = acc.length + lines.countP lineYieldsFinding := by
  induction lines generalizing acc with
  | nil => simp
  | cons l rest ih =>
    rw [List.foldl_cons, ih, parseLineStep_length, List.countP_cons]
    by_cases h : lineYieldsFinding l <;> (simp [h]; try omega)

/-- Helper: the finding construction throws exactly on the JSON literal
null (property access on null raises a TypeError; every other JSON value
tolerates property reads). -/
theorem buildFinding_ok_eq (v : Json) :
    exceptOk (buildFinding v) = !(Json.isNull v) := by
  cases v <;> rfl

/-- A line counted by the amended claim: non-blank, decoding as JSON, and
decoding to something other than the JSON literal null. -/
def isCountedLine (line : String) : Bool :=
  if jsTrim line = "" then false
  else
    match jsonParseJs line with
    | none => false
    | some v => !(Json.isNull v)

/-- Helper: a line yields a finding exactly when it is counted. -/
theorem lineYieldsFinding_eq_isCountedLine :
    lineYieldsFinding = isCountedLine := by
  funext line
  unfold lineYieldsFinding isCountedLine
  split
  · rfl
  · cases h : jsonParseJs line with
    | none => rfl
    | some v => exact buildFinding_ok_eq v

/-- C5 counterexample: the input consisting of the two valid JSON lines
an empty object and the literal null (N = 2 valid lines, zero malformed
lines) yields 1 finding, not 2 — the null line decodes successfully but is
dropped by the catch block when its property is read. -/
theorem C5_null_line_counterexample :
    jsonParseJs "\x7b\x7d" = some (Json.obj []) ∧
    jsonParseJs "null" = some Json.null ∧
    (parseTruffleHogOutput "\x7b\x7d\nnull").length = 1 := by
  exact ⟨rfl, rfl, rfl⟩

/-- C5 amended: for every output, the parser returns exactly one finding
per non-blank line that decodes as JSON to a non-null value; a line that
fails to decode — and likewise a line decoding to JSON null — is dropped
with a warning, never aborts parsing of subsequent lines, and never fails
the overall scan (the parse is total). -/
theorem C5_amended_tolerant_line_parsing :
    (∀ output : String,
        (parseTruffleHogOutput output).length
          = (jsSplitNewline (jsTrim output)).countP isCountedLine) ∧
    (∀ v : Json, exceptOk (buildFinding v) = !(Json.isNull v)) := by
  constructor
  · intro output
    unfold parseTruffleHogOutput
    split
    · next h => rw [h]; rfl
    · rw [foldl_parseLineStep_length, lineYieldsFinding_eq_isCountedLine]
      simp
  · exact buildFinding_ok_eq

/-! ## Cache layer (CacheService, trufflehogService.ts source lines given
as 260-318 for getScanResult/setScanResult)

`setScanResult` stores `JSON.stringify(result)` under
`scan:{provider}:{md5(repoUrl)}` via SETEX with `ttl || defaultTTL`
seconds; `getScanResult` reads the key and returns `JSON.parse` of the
stored string. JavaScript runtime values may contain Date objects
(`ScanResult.metadata.scannedAt: Date`), which `JSON.stringify` renders as
their ISO string, so the parse of the stringified value maps every Date to
a string and leaves all JSON-primitive data unchanged. -/

/-- A JavaScript runtime value as handed to the cache: JSON data plus Date
objects; numbers restricted to integers, which covers every numeric field
of ScanResult. -/
inductive JsValue
  | vnull
  | vbool (b : Bool)
  | vint (n : Int)
  | vstr (s : String)
  | vdate (ms : Int)
  | varr (elems : List JsValue)
  | vobj (fields : List (String × JsValue))
deriving Repr

/-- Modelled from the runtime: `Date.prototype.toJSON` renders the
timestamp as its ISO-8601 string. The calendar arithmetic is irrelevant to
every claim here — only that the result is a string determined by the
millisecond value — so the rendering is modelled as a stable injective
string image of the milliseconds. -/
def dateToJSONString (ms : Int) : String := "iso-of-ms:" ++ toString ms

mutual

/-- Modelled from the runtime: the composite `JSON.parse(JSON.stringify v)`
applied when a value crosses the cache's serialization boundary. Dates
become their ISO strings; all JSON-primitive data survives unchanged. -/
def jsonRoundTrip : JsValue → JsValue
  | JsValue.vnull => JsValue.vnull
  | JsValue.vbool b => JsValue.vbool b
  | JsValue.vint n => JsValue.vint n
  | JsValue.vstr s => JsValue.vstr s
  | JsValue.vdate ms => JsValue.vstr (dateToJSONString ms)
  | JsValue.varr xs => JsValue.varr (jsonRoundTripList xs)
  | JsValue.vobj fs => JsValue.vobj (jsonRoundTripFields fs)

/-- Serialization boundary applied to a list of values. -/
def jsonRoundTripList : List JsValue → List JsValue
  | [] => []
  | x :: xs => jsonRoundTrip x :: jsonRoundTripList xs

/-- Serialization boundary applied to object fields. -/
def jsonRoundTripFields : List (String × JsValue) → List (String × JsValue)
  | [] => []
  | (k, v) :: fs => (k, jsonRoundTrip v) :: jsonRoundTripFields fs

end

mutual

/-- Whether a value contains no Date object. -/
def dateFree : JsValue → Bool
  | JsValue.vdate _ => false
  | JsValue.varr xs => dateFreeList xs
  | JsValue.vobj fs => dateFreeFields fs
  | _ => true

/-- Whether a list of values contains no Date object. -/
def dateFreeList : List JsValue → Bool
  | [] => true
  | x :: xs => dateFree x && dateFreeList xs

/-- Whether object fields contain no Date object. -/
def dateFreeFields : List (String × JsValue) → Bool
  | [] => true
  | (_, v) :: fs => dateFree v && dateFreeFields fs

end

mutual

/-- Helper: the serialization boundary is the identity on Date-free
values. -/
theorem jsonRoundTrip_eq_self : ∀ v, dateFree v = true → jsonRoundTrip v = v
  | JsValue.vnull, _ => rfl
  | JsValue.vbool _, _ => rfl
  | JsValue.vint _, _ => rfl
  | JsValue.vstr _, _ => rfl
  | JsValue.vdate _, h => absurd h (by simp [dateFree])
  | JsValue.varr xs, h => by
      unfold jsonRoundTrip
      rw [jsonRoundTripList_eq_self xs (by simpa [dateFree] using h)]
  | JsValue.vobj fs, h => by
      unfold jsonRoundTrip
      rw [jsonRoundTripFields_eq_self fs (by simpa [dateFree] using h)]

/-- Helper: the serialization boundary is the identity on Date-free value
lists. -/
theorem jsonRoundTripList_eq_self :
    ∀ xs, dateFreeList xs = true → jsonRoundTripList xs = xs
  | [], _ => rfl
  | x :: xs, h => by
      have hsplit : dateFree x = true ∧ dateFreeList xs = true := by
        simpa [dateFreeList, Bool.and_eq_true] using h
      unfold jsonRoundTripList
      rw [jsonRoundTrip_eq_self x hsplit.1, jsonRoundTripList_eq_self xs hsplit.2]

/-- Helper: the serialization boundary is the identity on Date-free object
fields. -/
theorem jsonRoundTripFields_eq_self :
    ∀ fs, dateFreeFields fs = true → jsonRoundTripFields fs = fs
  | [], _ => rfl
  | (k, v) :: fs, h => by
      have hsplit : dateFree v = true ∧ dateFreeFields fs = true := by
        simpa [dateFreeFields, Bool.and_eq_true] using h
      unfold jsonRoundTripFields
      rw [jsonRoundTrip_eq_self v hsplit.1, jsonRoundTripFields_eq_self fs hsplit.2]

end

/-- Modelled from the runtime: the MD5 hex digest used as URL fingerprint.
Every claim verified here depends only on the digest being a deterministic
function of its input, so it is modelled as a stable string image. -/
def md5Hex (s : String) : String := s

/-- Embedding of `CacheService.generateCacheKey`:
`scan:{provider}:{md5(repoUrl)}`. -/
def generateCacheKey (repoUrl provider : String) : String :=
  "scan:" ++ provider ++ ":" ++ md5Hex repoUrl

/-- The redis keyspace relevant to the cache: key, stored value, and the
SETEX expiry deadline in ms. -/
abbrev RedisStore := List (String × JsValue × Int)

/-- Model of `redis.setex(key, ttlSeconds, value)`: replace any previous
entry and set the expiry deadline `now + 1000 * ttlSeconds`. -/
def redisSetex (store : RedisStore) (key : String) (ttlSeconds : Nat)
    (v : JsValue) (now : Int) : RedisStore :=
  (key, v, now + 1000 * (ttlSeconds : Int)) :: store.filter (fun e => !(e.1 == key))

/-- Model of `redis.get(key)` at time `now`: the stored value while the
key has not reached its expiry deadline, absent afterwards. -/
def redisGet (store : RedisStore) (key : String) (now : Int) : Option JsValue :=
  match store.find? (fun e => e.1 == key) with
  | some e => if now < e.2.2 then some e.2.1 else none
  | none => none

/-- A ScanResult as built by the service layer, with the field types of
`models/scan.ts`: `vulnerabilities` are arbitrary JSON-able values and
`metadata.scannedAt` is a Date (milliseconds). -/
structure ScanResultV where
  repoUrl : String
  provider : String
  vulnerabilities : List JsValue
  totalVulnerabilities : Int
  verifiedVulnerabilities : Int
  scanDuration : Int
  scannedAt : Int
deriving Repr

/-- The runtime object graph of a ScanResult handed to the cache. -/
def scanResultToJs (r : ScanResultV) : JsValue :=
  JsValue.vobj
    [("repoUrl", JsValue.vstr r.repoUrl),
     ("provider", JsValue.vstr r.provider),
     ("vulnerabilities", JsValue.varr r.vulnerabilities),
     ("metadata", JsValue.vobj
       [("totalVulnerabilities", JsValue.vint r.totalVulnerabilities),
        ("verifiedVulnerabilities", JsValue.vint r.verifiedVulnerabilities),
        ("scanDuration", JsValue.vint r.scanDuration),
        ("scannedAt", JsValue.vdate r.scannedAt)])]

/-- JavaScript `ttl || this.defaultTTL`: the explicit TTL unless it is
absent or zero (falsy). -/
def effectiveTTL (ttl : Option Nat) (defaultTTL : Nat) : Nat :=
  match ttl with
  | some t => if t = 0 then defaultTTL else t
  | none => defaultTTL

/-- Embedding of `CacheService.setScanResult`: SETEX of the serialized
result under the derived key with `ttl || defaultTTL` seconds. -/
def setScanResult (store : RedisStore) (repoUrl provider : String)
    (result : ScanResultV) (ttl : Option Nat) (defaultTTL : Nat) (now : Int) :
    RedisStore :=
  redisSetex store (generateCacheKey repoUrl provider)
    (effectiveTTL ttl defaultTTL) (scanResultToJs result) now

/-- Embedding of `CacheService.getScanResult`: read the derived key and
return the parse of the stored serialized data (the stringified object is
never the empty string, so the falsy guard is exactly the nil check). -/
def getScanResult (store : RedisStore) (repoUrl provider : String) (now : Int) :
    Option JsValue :=
  match redisGet store (generateCacheKey repoUrl provider) now with
  | none => none
  | some v => some (jsonRoundTrip v)

/-- What the cache hands back for a stored ScanResult: every JSON-
primitive field unchanged, the Date rendered as its ISO string. -/
def scanResultWire (r : ScanResultV) : JsValue :=
  JsValue.vobj
    [("repoUrl", JsValue.vstr r.repoUrl),
     ("provider", JsValue.vstr r.provider),
     ("vulnerabilities", JsValue.varr (jsonRoundTripList r.vulnerabilities)),
     ("metadata", JsValue.vobj
       [("totalVulnerabilities", JsValue.vint r.totalVulnerabilities),
        ("verifiedVulnerabilities", JsValue.vint r.verifiedVulnerabilities),
        ("scanDuration", JsValue.vint r.scanDuration),
        ("scannedAt", JsValue.vstr (dateToJSONString r.scannedAt))])]

/-- Helper: crossing the serialization boundary turns a ScanResult object
into its wire form. -/
theorem jsonRoundTrip_scanResult (r : ScanResultV) :
    jsonRoundTrip (scanResultToJs r) = scanResultWire r := rfl

/-- A concrete scan result whose `scannedAt` is a Date, as the service
layer builds it. -/
def sampleResult : ScanResultV :=
  { repoUrl := "https://github.com/org/repo", provider := "github",
    vulnerabilities := [], totalVulnerabilities := 0,
    verifiedVulnerabilities := 0, scanDuration := 1234,
    scannedAt := 1700000000000 }

/-- C6 counterexample: a set of `sampleResult` followed immediately by a
get returns the wire form, which is NOT deep-equal to the stored result —
the Date field `metadata.scannedAt` comes back as a string. -/
theorem C6_date_roundtrip_counterexample :
    getScanResult
        (setScanResult [] "https://github.com/org/repo" "github" sampleResult
          (some 3600) 86400 0)
        "https://github.com/org/repo" "github" 0
      = some (scanResultWire sampleResult) ∧
    scanResultWire sampleResult ≠ scanResultToJs sampleResult := by
  constructor
  · rfl
  · simp [scanResultWire, scanResultToJs, sampleResult, jsonRoundTripList]

/-- C6 amended: a `set(target, result, ttl)` followed by a `get(target)`
before the TTL deadline returns exactly the JSON round-trip of the stored
result under the key derived from the same (repositoryUrl, provider) pair:
deep-equal on every JSON-primitive field, with the Date-valued
`metadata.scannedAt` returned as its string serialization (and the
vulnerability list unchanged whenever it contains no Date). Once the TTL
deadline is reached, `get` returns absent. -/
theorem C6_amended_cache_roundtrip (store : RedisStore) (repoUrl provider : String)
    (r : ScanResultV) (ttl : Option Nat) (defaultTTL : Nat) (now t : Int) :
    (t < now + 1000 * ((effectiveTTL ttl defaultTTL : Nat) : Int) →
        getScanResult (setScanResult store repoUrl provider r ttl defaultTTL now)
            repoUrl provider t = some (scanResultWire r)) ∧
    (now + 1000 * ((effectiveTTL ttl defaultTTL : Nat) : Int) ≤ t →
        getScanResult (setScanResult store repoUrl provider r ttl defaultTTL now)
            repoUrl provider t = none) ∧
    (dateFreeList r.vulnerabilities = true →
        scanResultWire r
          = JsValue.vobj
              [("repoUrl", JsValue.vstr r.repoUrl),
               ("provider", JsValue.vstr r.provider),
               ("vulnerabilities", JsValue.varr r.vulnerabilities),
               ("metadata", JsValue.vobj
                 [("totalVulnerabilities", JsValue.vint r.totalVulnerabilities),
                  ("verifiedVulnerabilities", JsValue.vint r.verifiedVulnerabilities),
                  ("scanDuration", JsValue.vint r.scanDuration),
                  ("scannedAt", JsValue.vstr (dateToJSONString r.scannedAt))])]) := by
  have hfind :
      ((setScanResult store repoUrl provider r ttl defaultTTL now).find?
          (fun e => e.1 == generateCacheKey repoUrl provider))
        = some (generateCacheKey repoUrl provider, scanResultToJs r,
            now + 1000 * ((effectiveTTL ttl defaultTTL : Nat) : Int)) := by
    unfold setScanResult redisSetex
    rw [List.find?_cons_of_pos]
    simp
  refine ⟨?_, ?_, ?_⟩
  · intro ht
    unfold getScanResult redisGet
    simp only [hfind]
    rw [if_pos ht]
    show some (jsonRoundTrip (scanResultToJs r)) = some (scanResultWire r)
    rw [jsonRoundTrip_scanResult]
  · intro ht
    unfold getScanResult redisGet
    simp only [hfind]
    rw [if_neg (by omega)]
  · intro hdf
    unfold scanResultWire
    rw [jsonRoundTripList_eq_self r.vulnerabilities hdf]

/-- Witness for C6 amended at concrete inputs: storing `sampleResult` for
60 seconds at time 0, a get at 5000ms returns the wire form, a get at
60000ms returns absent, and the empty vulnerability list is Date-free so
it survives the round trip unchanged. -/
theorem C6_amended_cache_roundtrip_witness :
    getScanResult (setScanResult [] "u" "github" sampleResult (some 60) 86400 0)
        "u" "github" 5000 = some (scanResultWire sampleResult) ∧
    getScanResult (setScanResult [] "u" "github" sampleResult (some 60) 86400 0)
        "u" "github" 60000 = none :=
  ⟨(C6_amended_cache_roundtrip [] "u" "github" sampleResult (some 60) 86400 0 5000).1
      (by decide),
   (C6_amended_cache_roundtrip [] "u" "github" sampleResult (some 60) 86400 0 60000).2.1
      (by decide)⟩

/-! ## Request validation (validateScanRequest, scanValidator.ts 3-47)

The validator accumulates error strings: repoUrl must be present and parse
as a URL (`new URL`), with protocol http or https; when the hostname does
not contain any of the substrings github.com / gitlab.com / bitbucket.org,
an error is added unless provider is exactly `other`; provider must be
present and one of github, gitlab, bitbucket, other. The request passes
when no error accumulated. -/

/-- URL components the validator reads. -/
structure UrlParts where
  protocol : String
  hostname : String
deriving DecidableEq, Repr

/-- ASCII letter. -/
def isSchemeStart (c : Char) : Bool :=
  decide ('a' ≤ c ∧ c ≤ 'z') || decide ('A' ≤ c ∧ c ≤ 'Z')

/-- Character allowed inside a URL scheme. -/
def isSchemeChar (c : Char) : Bool :=
  isSchemeStart c || decide ('0' ≤ c ∧ c ≤ '9') || c == '+' || c == '-' || c == '.'

/-- ASCII lowercasing as the URL parser applies it. -/
def toLowerChar (c : Char) : Char :=
  if 'A' ≤ c ∧ c ≤ 'Z' then Char.ofNat (c.toNat + 32) else c

/-- Modelled from the runtime: the WHATWG `new URL` constructor, reduced
to what the validator reads (protocol and hostname, both lowercased).
Special schemes http/https take an authority after any run of slashes;
userinfo before the last `@` is dropped; a port after `:` must be digits;
an empty host is an error. Other schemes parse as opaque with an empty
hostname. Percent-encoding, IPv6 hosts and punycode are outside the model;
no verified claim depends on them. -/
def parseUrl (s : String) : Option UrlParts :=
  match s.data with
  | [] => none
  | c :: _ =>
    if isSchemeStart c then
      let schemeChars := s.data.takeWhile isSchemeChar
      match s.data.drop schemeChars.length with
      | ':' :: afterColon =>
        let scheme := String.mk (schemeChars.map toLowerChar)
        if scheme = "http" ∨ scheme = "https" then
          let afterSlashes := afterColon.dropWhile (fun ch => ch == '/' || ch == '\\')
          let authority := afterSlashes.takeWhile
            (fun ch => !(ch == '/' || ch == '?' || ch == '#' || ch == '\\'))
          match (splitOnChar '@' authority).getLast? with
          | none => none
          | some hostPort =>
            let host := hostPort.takeWhile (fun ch => !(ch == ':'))
            let portOk : Bool :=
              match hostPort.dropWhile (fun ch => !(ch == ':')) with
              | [] => true
              | _ :: digitsPart => digitsPart.all (fun ch => decide ('0' ≤ ch ∧ ch ≤ '9'))
            if host.isEmpty then none
            else if portOk then
              some { protocol := scheme ++ ":", hostname := String.mk (host.map toLowerChar) }
            else none
        else some { protocol := scheme ++ ":", hostname := "" }
      | _ => none
    else none

/-- Embedding of `validateScanRequest` for string-typed request fields:
the accumulated error list, in source order (absent fields arrive as the
falsy empty string). -/
def validateScanRequest (repoUrl provider : String) : List String :=
  let urlErrors : List String :=
    if repoUrl = "" then ["repoUrl is required"]
    else
      match parseUrl repoUrl with
      | none => ["repoUrl must be a valid URL"]
      | some u =>
        (if u.protocol = "http:" ∨ u.protocol = "https:" then []
         else ["repoUrl must be a valid HTTP/HTTPS URL"]) ++
        (if (["github.com", "gitlab.com", "bitbucket.org"].any
              (fun h => strIncludes u.hostname h)) = true then []
         else if provider = "other" then []
         else ["repoUrl must be from a supported Git provider"])
  let providerErrors : List String :=
    if provider = "" then ["provider is required"]
    else if provider ∈ ["github", "gitlab", "bitbucket", "other"] then []
    else ["provider must be one of: github, gitlab, bitbucket, other"]
  urlErrors ++ providerErrors

/-- The request passes validation (no error accumulated, `next()` runs). -/
def scanRequestPasses (repoUrl provider : String) : Bool :=
  decide (validateScanRequest repoUrl provider = [])

/-- Written from the claim's words: provider is one of github, gitlab,
bitbucket, other; repoUrl parses as a URL with http or https protocol; and
either the hostname contains one of the substrings github.com, gitlab.com,
bitbucket.org, or provider is exactly `other`. -/
def specScanRequestAccepted (repoUrl provider : String) : Bool :=
  decide (provider ∈ ["github", "gitlab", "bitbucket", "other"]) &&
  (match parseUrl repoUrl with
   | some u =>
     decide (u.protocol = "http:" ∨ u.protocol = "https:") &&
     ((["github.com", "gitlab.com", "bitbucket.org"].any
         (fun h => strIncludes u.hostname h))
       || decide (provider = "other"))
   | none => false)

/-- C10: a scan request passes validation exactly under the claim's
condition; in particular a hostname that merely contains one of the three
substrings is accepted for any provider, and an arbitrary host is accepted
when provider is `other` but rejected for other providers. -/
theorem C10_validation_characterization (repoUrl provider : String) :
    scanRequestPasses repoUrl provider = specScanRequestAccepted repoUrl provider ∧
    scanRequestPasses "https://notgithub.common/x" "gitlab" = true ∧
    scanRequestPasses "https://evil.example/x" "other" = true ∧
    scanRequestPasses "https://evil.example/x" "github" = false := by
  refine ⟨?_, rfl, rfl, rfl⟩
  unfold scanRequestPasses specScanRequestAccepted validateScanRequest
  by_cases hr : repoUrl = ""
  · have h0 : parseUrl "" = none := rfl
    simp [hr, h0]
  · cases hu : parseUrl repoUrl with
    | none => simp [hr, hu]
    | some u =>
      by_cases hpe : provider = ""
      · simp [hr, hu, hpe]
      · by_cases hin : provider ∈ ["github", "gitlab", "bitbucket", "other"]
        · by_cases hp : u.protocol = "http:" ∨ u.protocol = "https:"
          · by_cases hh : (["github.com", "gitlab.com", "bitbucket.org"].any
                (fun h => strIncludes u.hostname h)) = true
            · simp [hr, hu, hpe, hin, hp, hh]
            · by_cases hpo : provider = "other"
              · simp [hr, hu, hpe, hin, hp, hh, hpo]
              · simp [hr, hu, hpe, hin, hp, hh, hpo]
          · simp [hr, hu, hpe, hin, hp]
        · simp [hr, hu, hpe, hin]
